import Mathlib

/-!
Verification of the loan-prepayment amortization engine
(`src/server/server.js` of sravankumarreddy9/loan-prepayment-calculator).

Currency amounts are modelled as rationals; JavaScript `Math.round` is
modelled as `jsRound x = ⌊x + 1/2⌋` (round half toward +∞), which is its
behaviour on all real arguments.  Fallible code (`throw`) is modelled with
`Except String`.  The `while` loops of the source are modelled with an
explicit fuel argument equal to the loop bound of the source.
-/

/-- JavaScript `Math.round`: round half up, i.e. `⌊x + 1/2⌋` (server.js:49-51). -/
def jsRound (x : ℚ) : ℤ := ⌊x + 1/2⌋

/-- The message of the error thrown at server.js:60. -/
def emiTooSmallMsg : String := "EMI too small to cover interest."

/-- One row pushed by `amortizeUntilPaid` (server.js:64-70). -/
structure ScheduleRow where
  month : ℕ
  emi_paid : ℚ
  principal : ℚ
  interest : ℚ
  remaining : ℚ
deriving DecidableEq, Repr

/-- `const interest = round(balance * monthlyRate)` (server.js:58). -/
def amortInterest (r b : ℚ) : ℚ := ((jsRound (b * r) : ℤ) : ℚ)

/-- `if (principal > balance) principal = balance` (server.js:61): clip `p` at `b`. -/
def amortClip (b p : ℚ) : ℚ := if b < p then b else p

/-- `let principal = emi - interest` followed by the clip (server.js:59,61). -/
def amortPrincipal (r emi b : ℚ) : ℚ := amortClip b (emi - amortInterest r b)

/-- `balance = round(balance - principal)` (server.js:63). -/
def amortNext (r emi b : ℚ) : ℚ := ((jsRound (b - amortPrincipal r emi b) : ℤ) : ℚ)

/-- The row object pushed at server.js:64-70 for current balance `b`. -/
def amortRow (r emi b : ℚ) (month : ℕ) : ScheduleRow :=
  { month := month
    emi_paid := amortInterest r b + amortPrincipal r emi b
    principal := amortPrincipal r emi b
    interest := amortInterest r b
    remaining := max (amortNext r emi b) 0 }

/-- The `while (balance > 0 && month < maxMonths)` loop of `amortizeUntilPaid`
(server.js:56-71); `fuel` is the number of remaining permitted iterations
(`maxMonths - month`), `month` the iteration counter. -/
def amortGo (r emi : ℚ) : ℚ → ℕ → ℕ → Except String (List ScheduleRow)
  | _, _, 0 => Except.ok []
  | b, month, fuel + 1 =>
    if b ≤ 0 then Except.ok []
    else if emi - amortInterest r b ≤ 0 then Except.error emiTooSmallMsg
    else (amortGo r emi (amortNext r emi b) (month + 1) fuel).map
      (fun rest => amortRow r emi b (month + 1) :: rest)

/-- `amortizeUntilPaid(balance, monthlyRate, emi, maxMonths)` (server.js:53-73). -/
def amortizeUntilPaid (balance r emi : ℚ) (maxMonths : ℕ) : Except String (List ScheduleRow) :=
  amortGo r emi balance 0 maxMonths

/-- `computeEMI(balance, monthlyRate, months)` (server.js:75-79).
`Math.pow(1 + monthlyRate, months)` is `zpow` on ℚ. -/
def computeEMI (balance r : ℚ) (months : ℤ) : ℚ :=
  if months ≤ 0 then 0
  else ((jsRound (balance * r * (1 + r) ^ months / ((1 + r) ^ months - 1)) : ℤ) : ℚ)

/-- `schedule.reduce((s, r) => s + r.interest, 0)` (server.js:228,245). -/
def sumInterest (rows : List ScheduleRow) : ℚ :=
  rows.foldl (fun s row => s + row.interest) 0

/-- One entry of the `prepayments` request field (server.js:166-168, after the
`Number(...)` coercions; the data model fixes `month` to be an integer). -/
structure Prepayment where
  month : ℤ
  amount : ℚ
deriving DecidableEq, Repr

/-- One iteration of the `prepayments.forEach` merge (server.js:166-171):
entries with `!mm || aa <= 0` are skipped, the rest are summed per month. -/
def prepayStep (m : ℤ → ℚ) (p : Prepayment) : ℤ → ℚ :=
  if p.month = 0 ∨ p.amount ≤ 0 then m
  else fun k => if k = p.month then m k + p.amount else m k

/-- The merged `prepayMap` (server.js:165-171) as a total map with default 0
(absent keys are falsy in JS). -/
def prepayMap (ps : List Prepayment) : ℤ → ℚ :=
  ps.foldl prepayStep (fun _ => 0)

/-- `Object.keys(prepayMap)` (server.js:175-177): the months of the entries
that survive the merge filter.  Only its maximum is consumed, so duplicates
and ordering are irrelevant. -/
def validPrepayMonths (ps : List Prepayment) : List ℤ :=
  (ps.filter fun p => decide (¬(p.month = 0 ∨ p.amount ≤ 0))).map Prepayment.month

/-- `lastPrepayMonth` (server.js:175-177): max of the merged months, or
`paidEmis` when the map is empty. -/
def lastPrepayMonth (ps : List Prepayment) (paidEmis : ℤ) : ℤ :=
  match validPrepayMonths ps with
  | [] => paidEmis
  | x :: xs => xs.foldl max x

/-- `simulateTargetMonth = Math.max(lastPrepayMonth, paidEmis)` (server.js:178). -/
def rescheduleTarget (ps : List Prepayment) (paid : ℤ) : ℤ :=
  max (lastPrepayMonth ps paid) paid

/-- One element of `simLog` (server.js:187,192-198,205-211). -/
inductive SimEvent where
  | emiEv (month : ℤ) (emi_paid interest principal remaining_after_emi : ℚ)
  | prepayEv (month : ℤ) (prepay_amount before remaining_after_prepay : ℚ)
  | retroPrepayEv (month : ℤ) (prepay_amount before remaining_after_prepay : ℚ)
deriving DecidableEq, Repr

/-- `Math.max(0, round(outstanding - prepayMap[x]))` (server.js:191,204). -/
def simPrepayAfter (pm : ℤ → ℚ) (k : ℤ) (b : ℚ) : ℚ :=
  max 0 ((jsRound (b - pm k) : ℤ) : ℚ)

/-- The `while (currentMonth < simulateTargetMonth)` loop (server.js:180-200):
per month an EMI step (same arithmetic as `amortizeUntilPaid` but with no
`principal <= 0` check and no `balance > 0` guard), then the prepayment of
that month, if any.  `fuel` is `simulateTargetMonth - currentMonth`. -/
def simLoop (r emi : ℚ) (pm : ℤ → ℚ) : ℚ → ℤ → ℕ → ℚ × List SimEvent
  | b, _, 0 => (b, [])
  | b, cur, fuel + 1 =>
    if pm (cur + 1) ≠ 0 then
      ((simLoop r emi pm (simPrepayAfter pm (cur + 1) (amortNext r emi b)) (cur + 1) fuel).1,
        SimEvent.emiEv (cur + 1) (amortInterest r b + amortPrincipal r emi b)
            (amortInterest r b) (amortPrincipal r emi b) (amortNext r emi b)
          :: SimEvent.prepayEv (cur + 1) (pm (cur + 1)) (amortNext r emi b)
              (simPrepayAfter pm (cur + 1) (amortNext r emi b))
          :: (simLoop r emi pm (simPrepayAfter pm (cur + 1) (amortNext r emi b)) (cur + 1) fuel).2)
    else
      ((simLoop r emi pm (amortNext r emi b) (cur + 1) fuel).1,
        SimEvent.emiEv (cur + 1) (amortInterest r b + amortPrincipal r emi b)
            (amortInterest r b) (amortPrincipal r emi b) (amortNext r emi b)
          :: (simLoop r emi pm (amortNext r emi b) (cur + 1) fuel).2)

/-- The retroactive-prepayment block `if (prepayMap[paidEmis]) { ... unshift ... }`
(server.js:202-212), run on the state after the simulation loop. -/
def applyRetro (pm : ℤ → ℚ) (paid : ℤ) (st : ℚ × List SimEvent) : ℚ × List SimEvent :=
  if pm paid ≠ 0 then
    (simPrepayAfter pm paid st.1,
      SimEvent.retroPrepayEv paid (pm paid) st.1 (simPrepayAfter pm paid st.1) :: st.2)
  else st

/-- Simulation loop followed by the retroactive block (server.js:180-212):
outstanding after all prepayments, and the final `simLog`. -/
def simulatePrepayments (r emi b0 : ℚ) (paid : ℤ) (pm : ℤ → ℚ) (target : ℤ) :
    ℚ × List SimEvent :=
  applyRetro pm paid (simLoop r emi pm b0 paid (target - paid).toNat)

/-- The `for (let m = 1; m <= paidEmis; m++)` derivation of the starting
outstanding from the principal (server.js:151-157): `paidEmis` EMI balance
steps (no error check, clip present). -/
def deriveOutstanding (principal r emi : ℚ) : ℕ → ℚ
  | 0 => principal
  | n + 1 => amortNext r emi (deriveOutstanding principal r emi n)

/-- `monthlyRate = (Number(annualRate) / 100) / 12` (server.js:142). -/
def monthlyRateOf (annualRate : ℚ) : ℚ := annualRate / 100 / 12

/-- The `keepEMI` result object (server.js:217-232).  `monthsToFinish` and
`totalInterest` are `Option`s whose `none` models the JS `Infinity`. -/
structure KeepEMI where
  monthsToFinish : Option ℤ
  schedule : List ScheduleRow
  totalInterest : Option ℚ
  err : Option String
deriving DecidableEq, Repr

/-- Scenario A, keep EMI (server.js:217-232).  `ceilMonths` abstracts the
floating-point value `Math.ceil(Math.log(emi / denom) / Math.log(1 + monthlyRate))`
computed at server.js:224-225; every other part of the branch is modelled
exactly: the `denom <= 0` infinite case, the `try/catch` that turns the
`amortizeUntilPaid` error into the `err` field (with `monthsToFinish` already
assigned and `schedule`/`totalInterest` still at their initial values), and
the cap `monthsToFinish + 5`. -/
def keepEMIcalc (outstanding r emi : ℚ) (ceilMonths : ℤ) : KeepEMI :=
  if emi - outstanding * r ≤ 0 then
    { monthsToFinish := none, schedule := [], totalInterest := none, err := none }
  else
    match amortizeUntilPaid outstanding r emi (ceilMonths + 5).toNat with
    | Except.error msg =>
        { monthsToFinish := some ceilMonths, schedule := [], totalInterest := some 0,
          err := some msg }
    | Except.ok sched =>
        { monthsToFinish := some ceilMonths, schedule := sched,
          totalInterest := some (sumInterest sched), err := none }

/-- The `reduceEMI` result object (server.js:237). -/
structure ReduceEMI where
  newEmi : ℚ
  remainingSchedule : List ScheduleRow
  totalInterest : ℚ
deriving DecidableEq, Repr

/-- Scenario B, reduce EMI (server.js:235-246).  The `amortizeUntilPaid` call
here is NOT inside any try/catch, so its error propagates (hence the
`Except`). -/
def reduceEMIcalc (outstanding r : ℚ) (tenure target : ℤ) : Except String ReduceEMI :=
  if tenure - target ≤ 0 then
    Except.ok { newEmi := 0, remainingSchedule := [], totalInterest := 0 }
  else
    (amortizeUntilPaid outstanding r (computeEMI outstanding r (tenure - target))
        (tenure - target + 5).toNat).map fun sched =>
      { newEmi := computeEMI outstanding r (tenure - target)
        remainingSchedule :=
          if tenure - target < (sched.length : ℤ) then sched.take (tenure - target).toNat
          else sched
        totalInterest :=
          sumInterest (if tenure - target < (sched.length : ℤ) then
            sched.take (tenure - target).toNat else sched) }

/-- The JSON body sent at server.js:257-263 (computation-relevant fields). -/
structure RescheduleResponse where
  simLog : List SimEvent
  outstandingAfterPrepayments : ℚ
  keepEMI : KeepEMI
  reduceEMI : ReduceEMI
deriving DecidableEq, Repr

/-- The computational core of the `/api/reschedule` handler (server.js:142-263),
starting from an already-derived outstanding `b0`.  `keepEMIcalc` is total
(its internal error is caught), while an error in `reduceEMIcalc` propagates
to the outer catch (server.js:264-267) and fails the whole request. -/
def rescheduleCore (b0 r emi : ℚ) (tenure paid : ℤ) (ps : List Prepayment)
    (ceilMonths : ℤ) : Except String RescheduleResponse :=
  (reduceEMIcalc (simulatePrepayments r emi b0 paid (prepayMap ps) (rescheduleTarget ps paid)).1
      r tenure (rescheduleTarget ps paid)).map fun red =>
    { simLog := (simulatePrepayments r emi b0 paid (prepayMap ps) (rescheduleTarget ps paid)).2
      outstandingAfterPrepayments :=
        (simulatePrepayments r emi b0 paid (prepayMap ps) (rescheduleTarget ps paid)).1
      keepEMI :=
        keepEMIcalc (simulatePrepayments r emi b0 paid (prepayMap ps) (rescheduleTarget ps paid)).1
          r emi ceilMonths
      reduceEMI := red }

/-- The `/api/reschedule` handler on the `principal`-supplied path
(server.js:150-157 then 164-263). -/
def reschedule (principal annualRate emi : ℚ) (tenure : ℤ) (paid : ℕ)
    (ps : List Prepayment) (ceilMonths : ℤ) : Except String RescheduleResponse :=
  rescheduleCore (deriveOutstanding principal (monthlyRateOf annualRate) emi paid)
    (monthlyRateOf annualRate) emi tenure (paid : ℤ) ps ceilMonths

/-- A rational that is an integer number of currency units. -/
def intValued (q : ℚ) : Prop := ∃ k : ℤ, q = (k : ℚ)

/-- The per-row chain invariant of §8 of the spec: each row's `remaining` is
`round(previous remaining - principal)` and is nonnegative, where the
"previous remaining" of the first row is the starting balance. -/
def chainFrom : ℚ → List ScheduleRow → Prop
  | _, [] => True
  | b, row :: rest =>
      row.remaining = ((jsRound (b - row.principal) : ℤ) : ℚ) ∧
      0 ≤ row.remaining ∧ chainFrom row.remaining rest

/-- The `remaining` column is non-increasing from row to row. -/
def remainingNonIncreasing : List ScheduleRow → Prop
  | [] => True
  | [_] => True
  | x :: y :: rest => y.remaining ≤ x.remaining ∧ remainingNonIncreasing (y :: rest)

/-- All currency fields of an event that the engine computes (rather than
echoes from the input) are integral. -/
def eventIntegral : SimEvent → Prop
  | SimEvent.emiEv _ e i p rem => intValued e ∧ intValued i ∧ intValued p ∧ intValued rem
  | SimEvent.prepayEv _ _ before after => intValued before ∧ intValued after
  | SimEvent.retroPrepayEv _ _ before after => intValued before ∧ intValued after

/-! Helper lemmas. -/

theorem jsRound_nonneg {x : ℚ} (hx : 0 ≤ x) : 0 ≤ jsRound x := by
  unfold jsRound
  exact Int.floor_nonneg.mpr (by linarith)

theorem jsRound_int_sub_le (k : ℤ) {p : ℚ} (hp : 0 < p) : jsRound ((k : ℚ) - p) ≤ k := by
  unfold jsRound
  have h1 : ⌊(k : ℚ) - p + 1/2⌋ ≤ ⌊(k : ℚ) + 1/2⌋ := Int.floor_le_floor (by linarith)
  have h2 : ⌊(k : ℚ) + 1/2⌋ = k + ⌊(1/2 : ℚ)⌋ := Int.floor_int_add k (1/2)
  have h3 : ⌊(1/2 : ℚ)⌋ = 0 := by norm_num [Int.floor_eq_iff]
  omega

theorem amortClip_le (b p : ℚ) : amortClip b p ≤ b := by
  unfold amortClip
  split
  · exact le_refl b
  · exact le_of_not_lt (by assumption)

theorem amortClip_pos {b p : ℚ} (hb : 0 < b) (hp : 0 < p) : 0 < amortClip b p := by
  unfold amortClip
  split <;> assumption

theorem amortNext_nonneg (r emi b : ℚ) : 0 ≤ amortNext r emi b := by
  unfold amortNext
  have h1 : amortPrincipal r emi b ≤ b := amortClip_le b _
  have h2 : 0 ≤ jsRound (b - amortPrincipal r emi b) := jsRound_nonneg (by linarith)
  exact_mod_cast h2

theorem intValued_intCast (k : ℤ) : intValued ((k : ℤ) : ℚ) := ⟨k, rfl⟩

theorem intValued_zero : intValued (0 : ℚ) := ⟨0, by norm_num⟩

theorem intValued_add {a b : ℚ} (ha : intValued a) (hb : intValued b) : intValued (a + b) := by
  obtain ⟨j, hj⟩ := ha
  obtain ⟨k, hk⟩ := hb
  exact ⟨j + k, by rw [hj, hk]; push_cast; ring⟩

theorem intValued_sub {a b : ℚ} (ha : intValued a) (hb : intValued b) : intValued (a - b) := by
  obtain ⟨j, hj⟩ := ha
  obtain ⟨k, hk⟩ := hb
  exact ⟨j - k, by rw [hj, hk]; push_cast; ring⟩

theorem intValued_max {a b : ℚ} (ha : intValued a) (hb : intValued b) :
    intValued (max a b) := by
  rcases le_total a b with h | h
  · rw [max_eq_right h]; exact hb
  · rw [max_eq_left h]; exact ha

theorem intValued_amortInterest (r b : ℚ) : intValued (amortInterest r b) :=
  intValued_intCast _

theorem intValued_amortNext (r emi b : ℚ) : intValued (amortNext r emi b) :=
  intValued_intCast _

theorem intValued_amortPrincipal {r emi b : ℚ} (hb : intValued b) (hemi : intValued emi) :
    intValued (amortPrincipal r emi b) := by
  unfold amortPrincipal amortClip
  split
  · exact hb
  · exact intValued_sub hemi (intValued_amortInterest r b)

theorem intValued_simPrepayAfter (pm : ℤ → ℚ) (k : ℤ) (b : ℚ) :
    intValued (simPrepayAfter pm k b) :=
  intValued_max intValued_zero (intValued_intCast _)

theorem amortGo_succ (r emi b : ℚ) (month n : ℕ) :
    amortGo r emi b month (n + 1) =
      if b ≤ 0 then Except.ok []
      else if emi - amortInterest r b ≤ 0 then Except.error emiTooSmallMsg
      else (amortGo r emi (amortNext r emi b) (month + 1) n).map
        (fun rest => amortRow r emi b (month + 1) :: rest) := rfl

theorem simLoop_succ (r emi : ℚ) (pm : ℤ → ℚ) (b : ℚ) (cur : ℤ) (fuel : ℕ) :
    simLoop r emi pm b cur (fuel + 1) =
      if pm (cur + 1) ≠ 0 then
        ((simLoop r emi pm (simPrepayAfter pm (cur + 1) (amortNext r emi b)) (cur + 1) fuel).1,
          SimEvent.emiEv (cur + 1) (amortInterest r b + amortPrincipal r emi b)
              (amortInterest r b) (amortPrincipal r emi b) (amortNext r emi b)
            :: SimEvent.prepayEv (cur + 1) (pm (cur + 1)) (amortNext r emi b)
                (simPrepayAfter pm (cur + 1) (amortNext r emi b))
            :: (simLoop r emi pm (simPrepayAfter pm (cur + 1) (amortNext r emi b)) (cur + 1) fuel).2)
      else
        ((simLoop r emi pm (amortNext r emi b) (cur + 1) fuel).1,
          SimEvent.emiEv (cur + 1) (amortInterest r b + amortPrincipal r emi b)
              (amortInterest r b) (amortPrincipal r emi b) (amortNext r emi b)
            :: (simLoop r emi pm (amortNext r emi b) (cur + 1) fuel).2) := rfl

theorem amortGo_length (r emi : ℚ) :
    ∀ (fuel : ℕ) (b : ℚ) (month : ℕ) (sched : List ScheduleRow),
      amortGo r emi b month fuel = Except.ok sched → sched.length ≤ fuel := by
  intro fuel
  induction fuel with
  | zero =>
    intro b month sched h
    simp only [amortGo] at h
    cases h
    simp
  | succ n ih =>
    intro b month sched h
    rw [amortGo_succ] at h
    by_cases hb : b ≤ 0
    · rw [if_pos hb] at h
      cases h
      simp
    · rw [if_neg hb] at h
      by_cases he : emi - amortInterest r b ≤ 0
      · rw [if_pos he] at h
        exact absurd h (by simp)
      · rw [if_neg he] at h
        cases hgo : amortGo r emi (amortNext r emi b) (month + 1) n with
        | error msg =>
          rw [hgo] at h
          exact absurd h (by simp [Except.map])
        | ok rest =>
          rw [hgo] at h
          simp only [Except.map] at h
          cases h
          simpa using ih _ _ _ hgo

theorem amortGo_ok_nil (r emi b : ℚ) (month n : ℕ)
    (h : amortGo r emi b month (n + 1) = Except.ok []) : b ≤ 0 := by
  by_contra hb
  rw [amortGo_succ, if_neg hb] at h
  by_cases he : emi - amortInterest r b ≤ 0
  · rw [if_pos he] at h
    exact absurd h (by simp)
  · rw [if_neg he] at h
    cases hgo : amortGo r emi (amortNext r emi b) (month + 1) n with
    | error msg =>
      rw [hgo] at h
      exact absurd h (by simp [Except.map])
    | ok rest =>
      rw [hgo] at h
      simp [Except.map] at h

theorem amortGo_chain (r emi : ℚ) :
    ∀ (fuel : ℕ) (b : ℚ) (month : ℕ) (sched : List ScheduleRow),
      amortGo r emi b month fuel = Except.ok sched → chainFrom b sched := by
  intro fuel
  induction fuel with
  | zero =>
    intro b month sched h
    simp only [amortGo] at h
    cases h
    trivial
  | succ n ih =>
    intro b month sched h
    rw [amortGo_succ] at h
    by_cases hb : b ≤ 0
    · rw [if_pos hb] at h
      cases h
      trivial
    · rw [if_neg hb] at h
      by_cases he : emi - amortInterest r b ≤ 0
      · rw [if_pos he] at h
        exact absurd h (by simp)
      · rw [if_neg he] at h
        cases hgo : amortGo r emi (amortNext r emi b) (month + 1) n with
        | error msg =>
          rw [hgo] at h
          exact absurd h (by simp [Except.map])
        | ok rest =>
          rw [hgo] at h
          simp only [Except.map] at h
          cases h
          have hnn : 0 ≤ amortNext r emi b := amortNext_nonneg r emi b
          have hmax : max (amortNext r emi b) 0 = amortNext r emi b := max_eq_left hnn
          refine ⟨?_, ?_, ?_⟩
          · show max (amortNext r emi b) 0 = ((jsRound (b - amortPrincipal r emi b) : ℤ) : ℚ)
            rw [hmax]
            rfl
          · show 0 ≤ max (amortNext r emi b) 0
            exact le_max_right _ _
          · show chainFrom (amortRow r emi b (month + 1)).remaining rest
            have : (amortRow r emi b (month + 1)).remaining = amortNext r emi b := hmax
            rw [this]
            exact ih _ _ _ hgo

theorem amortGo_mono (r emi : ℚ) :
    ∀ (fuel : ℕ) (k : ℤ) (month : ℕ) (sched : List ScheduleRow),
      amortGo r emi ((k : ℤ) : ℚ) month fuel = Except.ok sched →
      remainingNonIncreasing sched ∧
        ∀ row, sched.head? = some row → row.remaining ≤ ((k : ℤ) : ℚ) := by
  intro fuel
  induction fuel with
  | zero =>
    intro k month sched h
    simp only [amortGo] at h
    cases h
    exact ⟨trivial, by intro row hrow; simp at hrow⟩
  | succ n ih =>
    intro k month sched h
    rw [amortGo_succ] at h
    by_cases hb : ((k : ℤ) : ℚ) ≤ 0
    · rw [if_pos hb] at h
      cases h
      exact ⟨trivial, by intro row hrow; simp at hrow⟩
    · rw [if_neg hb] at h
      by_cases he : emi - amortInterest r ((k : ℤ) : ℚ) ≤ 0
      · rw [if_pos he] at h
        exact absurd h (by simp)
      · rw [if_neg he] at h
        cases hgo : amortGo r emi (amortNext r emi ((k : ℤ) : ℚ)) (month + 1) n with
        | error msg =>
          rw [hgo] at h
          exact absurd h (by simp [Except.map])
        | ok rest =>
          rw [hgo] at h
          simp only [Except.map] at h
          cases h
          have hkpos : (0 : ℚ) < ((k : ℤ) : ℚ) := lt_of_not_le hb
          have hppos : 0 < amortPrincipal r emi ((k : ℤ) : ℚ) :=
            amortClip_pos hkpos (lt_of_not_le he)
          have hnextle : jsRound (((k : ℤ) : ℚ) - amortPrincipal r emi ((k : ℤ) : ℚ)) ≤ k :=
            jsRound_int_sub_le k hppos
          have hnexteq : amortNext r emi ((k : ℤ) : ℚ) =
              ((jsRound (((k : ℤ) : ℚ) - amortPrincipal r emi ((k : ℤ) : ℚ)) : ℤ) : ℚ) := rfl
          have hrem : (amortRow r emi ((k : ℤ) : ℚ) (month + 1)).remaining =
              amortNext r emi ((k : ℤ) : ℚ) := max_eq_left (amortNext_nonneg r emi _)
          have hremle : (amortRow r emi ((k : ℤ) : ℚ) (month + 1)).remaining ≤ ((k : ℤ) : ℚ) := by
            rw [hrem, hnexteq]
            exact_mod_cast hnextle
          have ihres := ih (jsRound (((k : ℤ) : ℚ) - amortPrincipal r emi ((k : ℤ) : ℚ)))
            (month + 1) rest (by rw [← hnexteq]; exact hgo)
          constructor
          · cases rest with
            | nil => trivial
            | cons y ys =>
              refine ⟨?_, ihres.1⟩
              have hy := ihres.2 y rfl
              calc y.remaining ≤ ((jsRound (((k : ℤ) : ℚ) -
                    amortPrincipal r emi ((k : ℤ) : ℚ)) : ℤ) : ℚ) := hy
                _ = (amortRow r emi ((k : ℤ) : ℚ) (month + 1)).remaining := by
                    rw [hrem, hnexteq]
          · intro row hrow
            simp only [List.head?_cons, Option.some.injEq] at hrow
            rw [← hrow]
            exact hremle

theorem amortGo_last (r emi : ℚ) :
    ∀ (fuel : ℕ) (b : ℚ) (month : ℕ) (sched : List ScheduleRow),
      amortGo r emi b month fuel = Except.ok sched → sched.length < fuel →
      ((sched.getLast?).map ScheduleRow.remaining).getD 0 = 0 := by
  intro fuel
  induction fuel with
  | zero =>
    intro b month sched h hlen
    exact absurd hlen (by omega)
  | succ n ih =>
    intro b month sched h hlen
    rw [amortGo_succ] at h
    by_cases hb : b ≤ 0
    · rw [if_pos hb] at h
      cases h
      rfl
    · rw [if_neg hb] at h
      by_cases he : emi - amortInterest r b ≤ 0
      · rw [if_pos he] at h
        exact absurd h (by simp)
      · rw [if_neg he] at h
        cases hgo : amortGo r emi (amortNext r emi b) (month + 1) n with
        | error msg =>
          rw [hgo] at h
          exact absurd h (by simp [Except.map])
        | ok rest =>
          rw [hgo] at h
          simp only [Except.map] at h
          cases h
          cases rest with
          | nil =>
            cases n with
            | zero => simp at hlen
            | succ m =>
              have hnext0 : amortNext r emi b ≤ 0 := amortGo_ok_nil r emi _ _ _ hgo
              have : (amortRow r emi b (month + 1)).remaining = 0 := by
                show max (amortNext r emi b) 0 = 0
                exact max_eq_right hnext0
              simp [List.getLast?, this]
          | cons y ys =>
            have hlen2 : (y :: ys).length < n := by
              simp only [List.length_cons] at hlen ⊢
              omega
            have := ih _ _ _ hgo hlen2
            rwa [List.getLast?_cons_cons]


theorem amortGo_integral (r emi : ℚ) :
    ∀ (fuel : ℕ) (b : ℚ) (month : ℕ) (sched : List ScheduleRow),
      amortGo r emi b month fuel = Except.ok sched →
      (∀ row ∈ sched, intValued row.interest ∧ intValued row.remaining) ∧
        (intValued b → intValued emi →
          ∀ row ∈ sched, intValued row.emi_paid ∧ intValued row.principal) := by
  intro fuel
  induction fuel with
  | zero =>
    intro b month sched h
    simp only [amortGo] at h
    cases h
    exact ⟨by simp, fun _ _ => by simp⟩
  | succ n ih =>
    intro b month sched h
    rw [amortGo_succ] at h
    by_cases hb : b ≤ 0
    · rw [if_pos hb] at h
      cases h
      exact ⟨by simp, fun _ _ => by simp⟩
    · rw [if_neg hb] at h
      by_cases he : emi - amortInterest r b ≤ 0
      · rw [if_pos he] at h
        exact absurd h (by simp)
      · rw [if_neg he] at h
        cases hgo : amortGo r emi (amortNext r emi b) (month + 1) n with
        | error msg =>
          rw [hgo] at h
          exact absurd h (by simp [Except.map])
        | ok rest =>
          rw [hgo] at h
          simp only [Except.map] at h
          cases h
          have ihres := ih _ _ _ hgo
          constructor
          · intro row hrow
            rcases List.mem_cons.mp hrow with hrow | hrow
            · subst hrow
              refine ⟨intValued_amortInterest r b, ?_⟩
              show intValued (max (amortNext r emi b) 0)
              exact intValued_max (intValued_amortNext r emi b) intValued_zero
            · exact ihres.1 row hrow
          · intro hbint hemiint row hrow
            rcases List.mem_cons.mp hrow with hrow | hrow
            · subst hrow
              have hp : intValued (amortPrincipal r emi b) :=
                intValued_amortPrincipal hbint hemiint
              exact ⟨intValued_add (intValued_amortInterest r b) hp, hp⟩
            · exact ihres.2 (intValued_amortNext r emi b) hemiint row hrow

theorem simLoop_integral (r emi : ℚ) (pm : ℤ → ℚ) :
    ∀ (fuel : ℕ) (b : ℚ) (cur : ℤ),
      intValued b → intValued emi →
      intValued (simLoop r emi pm b cur fuel).1 ∧
        ∀ ev ∈ (simLoop r emi pm b cur fuel).2, eventIntegral ev := by
  intro fuel
  induction fuel with
  | zero =>
    intro b cur hb hemi
    exact ⟨hb, by simp [simLoop]⟩
  | succ n ih =>
    intro b cur hb hemi
    rw [simLoop_succ]
    have hp : intValued (amortPrincipal r emi b) := intValued_amortPrincipal hb hemi
    have hemiev : eventIntegral (SimEvent.emiEv (cur + 1)
        (amortInterest r b + amortPrincipal r emi b) (amortInterest r b)
        (amortPrincipal r emi b) (amortNext r emi b)) :=
      ⟨intValued_add (intValued_amortInterest r b) hp, intValued_amortInterest r b, hp,
        intValued_amortNext r emi b⟩
    by_cases hpm : pm (cur + 1) ≠ 0
    · rw [if_pos hpm]
      have ihres := ih (simPrepayAfter pm (cur + 1) (amortNext r emi b)) (cur + 1)
        (intValued_simPrepayAfter pm _ _) hemi
      refine ⟨ihres.1, ?_⟩
      intro ev hev
      rcases List.mem_cons.mp hev with hev | hev
      · subst hev; exact hemiev
      rcases List.mem_cons.mp hev with hev | hev
      · subst hev
        exact ⟨intValued_amortNext r emi b, intValued_simPrepayAfter pm _ _⟩
      · exact ihres.2 ev hev
    · rw [if_neg hpm]
      have ihres := ih (amortNext r emi b) (cur + 1) (intValued_amortNext r emi b) hemi
      refine ⟨ihres.1, ?_⟩
      intro ev hev
      rcases List.mem_cons.mp hev with hev | hev
      · subst hev; exact hemiev
      · exact ihres.2 ev hev

theorem simulatePrepayments_integral (r emi b0 : ℚ) (paid : ℤ) (pm : ℤ → ℚ) (target : ℤ)
    (hb : intValued b0) (hemi : intValued emi) :
    intValued (simulatePrepayments r emi b0 paid pm target).1 ∧
      ∀ ev ∈ (simulatePrepayments r emi b0 paid pm target).2, eventIntegral ev := by
  unfold simulatePrepayments applyRetro
  have hloop := simLoop_integral r emi pm ((target - paid).toNat) b0 paid hb hemi
  by_cases hpm : pm paid ≠ 0
  · rw [if_pos hpm]
    refine ⟨intValued_simPrepayAfter pm _ _, ?_⟩
    intro ev hev
    rcases List.mem_cons.mp hev with hev | hev
    · subst hev
      exact ⟨hloop.1, intValued_simPrepayAfter pm _ _⟩
    · exact hloop.2 ev hev
  · rw [if_neg hpm]
    exact hloop

/-! Claim theorems. -/

/-- C6: `computeEMI(balance, monthlyRate, months)` returns 0 for every
`months ≤ 0`, and for every `months = n > 0` returns
`round(balance·r·(1+r)^n / ((1+r)^n − 1))` with `r = monthlyRate`. -/
theorem C6_computeEMI (balance r : ℚ) (months : ℤ) :
    (months ≤ 0 → computeEMI balance r months = 0) ∧
      (∀ n : ℕ, months = (n : ℤ) → 0 < n →
        computeEMI balance r months =
          ((jsRound (balance * r * (1 + r) ^ n / ((1 + r) ^ n - 1)) : ℤ) : ℚ)) := by
  constructor
  · intro h
    unfold computeEMI
    rw [if_pos h]
  · intro n hn hpos
    subst hn
    unfold computeEMI
    rw [if_neg (by exact_mod_cast not_le.mpr (by exact_mod_cast hpos)), zpow_natCast]

theorem C6_witness :
    computeEMI 100 (1/2) (-3) = 0 ∧ computeEMI 100 (1/2) 2 = 90 := by
  constructor
  · exact (C6_computeEMI 100 (1/2) (-3)).1 (by norm_num)
  · have h := (C6_computeEMI 100 (1/2) 2).2 2 (by norm_num) (by norm_num)
    rw [h]
    norm_num [jsRound]

/-- C4: Scenario A (`keepEMI`).  When `emi − outstanding·r ≤ 0` the result is
the infinite record (`monthsToFinish`/`totalInterest` = none, empty schedule)
with no error raised; otherwise `monthsToFinish` is the abstracted ceiling
`m` of the closed form, and when `amortizeUntilPaid` with cap `m + 5`
succeeds, the schedule is exactly its result and `totalInterest` the sum of
its interest column, with no error. -/
theorem C4_keepEMI (outstanding r emi : ℚ) (m : ℤ) :
    (emi - outstanding * r ≤ 0 →
      keepEMIcalc outstanding r emi m =
        { monthsToFinish := none, schedule := [], totalInterest := none, err := none }) ∧
      (0 < emi - outstanding * r →
        ∀ sched, amortizeUntilPaid outstanding r emi (m + 5).toNat = Except.ok sched →
          keepEMIcalc outstanding r emi m =
            { monthsToFinish := some m, schedule := sched,
              totalInterest := some (sumInterest sched), err := none }) := by
  constructor
  · intro h
    unfold keepEMIcalc
    rw [if_pos h]
  · intro h sched hsched
    unfold keepEMIcalc
    rw [if_neg (not_le.mpr h), hsched]

theorem C4_witness :
    keepEMIcalc 1000 (1/100) 5 3 =
        { monthsToFinish := none, schedule := [], totalInterest := none, err := none } ∧
      keepEMIcalc 1 (1/2) 10 1 =
        { monthsToFinish := some 1, schedule := [⟨1, 2, 1, 1, 0⟩],
          totalInterest := some 1, err := none } := by
  constructor
  · exact (C4_keepEMI 1000 (1/100) 5 3).1 (by norm_num)
  · have h := (C4_keepEMI 1 (1/2) 10 1).2 (by norm_num) [⟨1, 2, 1, 1, 0⟩]
      (by norm_num [amortizeUntilPaid, amortGo, amortRow, amortNext, amortPrincipal, amortClip,
        amortInterest, jsRound, Except.map])
    rw [h]
    norm_num [sumInterest]

/-- C7: Scenario B (`reduceEMI`).  With `remainingMonths = totalTenure − target`
(where the caller passes `target = max(paidEmis, last prepayment month)`):
if `remainingMonths ≤ 0` the result is `newEmi = 0`, empty schedule, zero
interest; otherwise `newEmi = computeEMI(outstanding, r, remainingMonths)`,
the returned schedule is the `amortizeUntilPaid` schedule (cap
`remainingMonths + 5`) truncated to at most `remainingMonths` rows, and
`totalInterest` sums the returned rows. -/
theorem C7_reduceEMI (outstanding r : ℚ) (tenure target : ℤ) :
    (tenure - target ≤ 0 →
      reduceEMIcalc outstanding r tenure target =
        Except.ok { newEmi := 0, remainingSchedule := [], totalInterest := 0 }) ∧
      (0 < tenure - target →
        ∀ sched,
          amortizeUntilPaid outstanding r (computeEMI outstanding r (tenure - target))
              (tenure - target + 5).toNat = Except.ok sched →
          reduceEMIcalc outstanding r tenure target =
            Except.ok
              { newEmi := computeEMI outstanding r (tenure - target),
                remainingSchedule := sched.take (tenure - target).toNat,
                totalInterest := sumInterest (sched.take (tenure - target).toNat) }) := by
  constructor
  · intro h
    unfold reduceEMIcalc
    rw [if_pos h]
  · intro h sched hsched
    unfold reduceEMIcalc
    rw [if_neg (not_le.mpr h), hsched]
    simp only [Except.map]
    by_cases hlen : tenure - target < (sched.length : ℤ)
    · simp only [if_pos hlen]
    · simp only [if_neg hlen]
      push_neg at hlen
      have hle : sched.length ≤ (tenure - target).toNat := by omega
      rw [List.take_of_length_le hle]

theorem C7_witness :
    reduceEMIcalc 97 (1/10) 10 10 =
        Except.ok { newEmi := 0, remainingSchedule := [], totalInterest := 0 } ∧
      reduceEMIcalc 100 (1/2) 2 0 =
        Except.ok
          { newEmi := 90,
            remainingSchedule := [⟨1, 90, 40, 50, 60⟩, ⟨2, 90, 60, 30, 0⟩],
            totalInterest := 80 } := by
  constructor
  · exact (C7_reduceEMI 97 (1/10) 10 10).1 (by norm_num)
  · have h := (C7_reduceEMI 100 (1/2) 2 0).2 (by norm_num)
      [⟨1, 90, 40, 50, 60⟩, ⟨2, 90, 60, 30, 0⟩]
      (by norm_num [amortizeUntilPaid, amortGo, amortRow, amortNext, amortPrincipal, amortClip,
        amortInterest, jsRound, Except.map, computeEMI])
    rw [h]
    norm_num [sumInterest, computeEMI, jsRound,
      show ∀ (a b : ScheduleRow), List.take (Int.toNat 2) [a, b] = [a, b] from fun a b => rfl]

/-- C10: a prepayment entry whose month is 0 is silently discarded by the
merge at server.js:169 (`if (!mm || aa <= 0) return`), because `0` is falsy
in JavaScript: it never contributes to the merged map, never influences the
simulation horizon, and the whole reschedule computation is as if the entry
were absent (so it also never produces an event), regardless of its
(positive) amount. -/
theorem C10_monthZeroDiscarded (p : Prepayment) (hp : p.month = 0)
    (ps1 ps2 : List Prepayment) :
    prepayMap (ps1 ++ p :: ps2) = prepayMap (ps1 ++ ps2) ∧
      validPrepayMonths (ps1 ++ p :: ps2) = validPrepayMonths (ps1 ++ ps2) ∧
      ∀ (b0 r emi : ℚ) (tenure paid m : ℤ),
        rescheduleCore b0 r emi tenure paid (ps1 ++ p :: ps2) m =
          rescheduleCore b0 r emi tenure paid (ps1 ++ ps2) m := by
  have hstep : ∀ m0 : ℤ → ℚ, prepayStep m0 p = m0 := by
    intro m0
    unfold prepayStep
    rw [if_pos (Or.inl hp)]
  have hmap : prepayMap (ps1 ++ p :: ps2) = prepayMap (ps1 ++ ps2) := by
    unfold prepayMap
    rw [List.foldl_append, List.foldl_append, List.foldl_cons, hstep]
  have hmonths : validPrepayMonths (ps1 ++ p :: ps2) = validPrepayMonths (ps1 ++ ps2) := by
    unfold validPrepayMonths
    rw [List.filter_append, List.filter_append, List.filter_cons]
    simp [hp]
  have htarget : ∀ q : ℤ,
      rescheduleTarget (ps1 ++ p :: ps2) q = rescheduleTarget (ps1 ++ ps2) q := by
    intro q
    unfold rescheduleTarget lastPrepayMonth
    rw [hmonths]
  refine ⟨hmap, hmonths, ?_⟩
  intro b0 r emi tenure paid m
  unfold rescheduleCore
  rw [hmap, htarget]

theorem C10_witness :
    rescheduleCore 100000 (1/100) 2000 12 1 [⟨0, 500⟩, ⟨2, 1000⟩] 1 =
        rescheduleCore 100000 (1/100) 2000 12 1 [⟨2, 1000⟩] 1 ∧
      prepayMap [⟨0, 500⟩, ⟨2, 1000⟩] = prepayMap [⟨2, 1000⟩] := by
  have h := C10_monthZeroDiscarded ⟨0, 500⟩ rfl [] [⟨2, 1000⟩]
  exact ⟨by simpa using h.2.2 100000 (1/100) 2000 12 1 1, by simpa using h.1⟩

/-- C1: one `amortizeUntilPaid` iteration computes
`interest = round(balance·r)`, `principal = emi − interest`, errors with
"EMI too small to cover interest." when `principal ≤ 0`, clips `principal`
to `balance` when larger (that row's `emi_paid` being `interest + clipped
principal`), updates `balance = round(balance − principal)`, emits exactly
one row and recurses; the loop stops at `balance ≤ 0` or after `maxMonths`
iterations, so an `ok` schedule has length at most `maxMonths`. -/
theorem C1_amortizeStep (balance r emi : ℚ) (maxM : ℕ) :
    (∀ sched, amortizeUntilPaid balance r emi maxM = Except.ok sched →
      sched.length ≤ maxM) ∧
      (maxM = 0 → amortizeUntilPaid balance r emi maxM = Except.ok []) ∧
      (balance ≤ 0 → amortizeUntilPaid balance r emi maxM = Except.ok []) ∧
      (∀ n : ℕ, maxM = n + 1 → 0 < balance →
        (emi - amortInterest r balance ≤ 0 →
          amortizeUntilPaid balance r emi maxM = Except.error emiTooSmallMsg) ∧
          (0 < emi - amortInterest r balance →
            (amortPrincipal r emi balance =
              if balance < emi - amortInterest r balance then balance
              else emi - amortInterest r balance) ∧
            amortizeUntilPaid balance r emi maxM =
              (amortGo r emi ((jsRound (balance - amortPrincipal r emi balance) : ℤ) : ℚ) 1 n).map
                (fun rest =>
                  { month := 1,
                    emi_paid := amortInterest r balance + amortPrincipal r emi balance,
                    principal := amortPrincipal r emi balance,
                    interest := amortInterest r balance,
                    remaining :=
                      max ((jsRound (balance - amortPrincipal r emi balance) : ℤ) : ℚ) 0 }
                    :: rest))) := by
  refine ⟨?_, ?_, ?_, ?_⟩
  · intro sched h
    exact amortGo_length r emi maxM balance 0 sched h
  · intro h
    subst h
    rfl
  · intro h
    cases maxM with
    | zero => rfl
    | succ n =>
      unfold amortizeUntilPaid
      rw [amortGo_succ, if_pos h]
  · intro n hn hb
    subst hn
    constructor
    · intro he
      unfold amortizeUntilPaid
      rw [amortGo_succ, if_neg (not_le.mpr hb), if_pos he]
    · intro he
      refine ⟨rfl, ?_⟩
      unfold amortizeUntilPaid
      rw [amortGo_succ, if_neg (not_le.mpr hb), if_neg (not_le.mpr he)]
      rfl

theorem C1_witness :
    amortizeUntilPaid 1 (1/2) 10 1 = Except.ok [⟨1, 2, 1, 1, 0⟩] := by
  have h := ((C1_amortizeStep 1 (1/2) 10 1).2.2.2 0 rfl (by norm_num)).2
    (by norm_num [amortInterest, jsRound])
  rw [h.2]
  norm_num [amortGo, amortPrincipal, amortClip, amortInterest, jsRound, Except.map]

/-- C3 fails on the code: the reschedule simulation loop performs the same
interest/principal split and clipping as `amortizeUntilPaid`, but it has NO
fatal-error check.  At balance 1000, rate 1/10, EMI 50 the principal is
50 − 100 = −50 ≤ 0: `amortizeUntilPaid` signals "EMI too small to cover
interest." while the simulation loop silently emits an EMI event with
principal −50 and a GROWN balance of 1050. -/
theorem C3_counterexample :
    amortizeUntilPaid 1000 (1/10) 50 1 = Except.error emiTooSmallMsg ∧
      simLoop (1/10) 50 (fun _ => 0) 1000 0 1 =
        (1050, [SimEvent.emiEv 1 50 100 (-50) 1050]) := by
  constructor
  · norm_num [amortizeUntilPaid, amortGo, amortInterest, jsRound]
  · norm_num [simLoop, simPrepayAfter, amortNext, amortPrincipal, amortClip,
      amortInterest, jsRound]

/-- C3 amended: every EMI step of the simulation loop uses the same
interest/principal split, clipping and balance update as an
`amortizeUntilPaid` step on the same balance, rate and EMI, but the loop
omits the `principal ≤ 0` fatal-error check: it always emits its EMI event
(first conjunct holds with no positivity hypothesis), whereas
`amortizeUntilPaid` errors exactly when `principal ≤ 0` (second and third
conjuncts). -/
theorem C3_amended (b r emi : ℚ) (cur : ℤ) (fuel : ℕ) (pm : ℤ → ℚ) :
    ((simLoop r emi pm b cur (fuel + 1)).2.head? =
      some (SimEvent.emiEv (cur + 1) (amortInterest r b + amortPrincipal r emi b)
        (amortInterest r b) (amortPrincipal r emi b) (amortNext r emi b))) ∧
      (0 < b → emi - amortInterest r b ≤ 0 →
        amortizeUntilPaid b r emi (fuel + 1) = Except.error emiTooSmallMsg) ∧
      (0 < b → 0 < emi - amortInterest r b →
        amortizeUntilPaid b r emi (fuel + 1) =
          (amortGo r emi (amortNext r emi b) 1 fuel).map
            (fun rest => amortRow r emi b 1 :: rest)) := by
  refine ⟨?_, ?_, ?_⟩
  · rw [simLoop_succ]
    by_cases hpm : pm (cur + 1) ≠ 0
    · rw [if_pos hpm]
      rfl
    · rw [if_neg hpm]
      rfl
  · intro hb he
    unfold amortizeUntilPaid
    rw [amortGo_succ, if_neg (not_le.mpr hb), if_pos he]
  · intro hb he
    unfold amortizeUntilPaid
    rw [amortGo_succ, if_neg (not_le.mpr hb), if_neg (not_le.mpr he)]

theorem C3_amended_witness :
    (simLoop (1/10) 16 (fun _ => 0) 97 0 1).2.head? =
        some (SimEvent.emiEv 1 16 10 6 91) ∧
      amortizeUntilPaid 97 (1/10) 16 1 = Except.ok [⟨1, 16, 6, 10, 91⟩] := by
  have h := C3_amended 97 (1/10) 16 0 0 (fun _ => 0)
  constructor
  · rw [h.1]
    norm_num [amortNext, amortPrincipal, amortClip, amortInterest, jsRound]
  · rw [h.2.2 (by norm_num) (by norm_num [amortInterest, jsRound])]
    norm_num [amortGo, amortRow, amortNext, amortPrincipal, amortClip, amortInterest,
      jsRound, Except.map]

/-- C2 fails on the code when the plan also contains prepayments at later
months: the retroactive block (server.js:202-212) runs AFTER the simulation
loop, so the prepayment at `month == paidEmis` is subtracted from the
post-loop outstanding, not from the starting outstanding.  Concrete input:
principal 100000, annualRate 12 (monthly rate 1/100), EMI 2000,
paidEmis 1, prepayments {month 1: 50000, month 2: 1000}.  The starting
(paidEmis-derived) outstanding is 99000, yet the retroactive event records
`before` = 96990 (the balance after the month-2 EMI and prepayment), and
the month-2 EMI event's interest 990 was computed from the un-reduced
99000 — so the retro prepayment was NOT applied before the EMI step. -/
theorem C2_counterexample :
    deriveOutstanding 100000 (monthlyRateOf 12) 2000 1 = 99000 ∧
      simulatePrepayments (monthlyRateOf 12) 2000 99000 1
          (prepayMap [⟨1, 50000⟩, ⟨2, 1000⟩])
          (rescheduleTarget [⟨1, 50000⟩, ⟨2, 1000⟩] 1) =
        (46990,
          [SimEvent.retroPrepayEv 1 50000 96990 46990,
            SimEvent.emiEv 2 2000 990 1010 97990,
            SimEvent.prepayEv 2 1000 97990 96990]) ∧
      (96990 : ℚ) ≠ 99000 := by
  refine ⟨?_, ?_, by norm_num⟩
  · norm_num [deriveOutstanding, amortNext, amortPrincipal, amortClip, amortInterest,
      jsRound, monthlyRateOf]
  · norm_num [simulatePrepayments, applyRetro, simLoop, simPrepayAfter, amortNext,
      amortPrincipal, amortClip, amortInterest, jsRound, monthlyRateOf, prepayMap,
      prepayStep, rescheduleTarget, lastPrepayMonth, validPrepayMonths, List.filter,
      max_def]

/-- C2 amended: when the merged plan has a prepayment at `month == paidEmis`,
it is subtracted from the outstanding balance AFTER the simulation loop has
run (i.e. after all later EMI steps and prepayments), clipped at zero, and
its event is inserted at the head of the event log; it is applied to the
starting balance exactly when the simulation loop is empty (no prepayment at
a later month, `target ≤ paidEmis`). -/
theorem C2_amended (r emi b0 : ℚ) (paid target : ℤ) (pm : ℤ → ℚ) (hpm : pm paid ≠ 0) :
    simulatePrepayments r emi b0 paid pm target =
        (simPrepayAfter pm paid (simLoop r emi pm b0 paid (target - paid).toNat).1,
          SimEvent.retroPrepayEv paid (pm paid)
              (simLoop r emi pm b0 paid (target - paid).toNat).1
              (simPrepayAfter pm paid (simLoop r emi pm b0 paid (target - paid).toNat).1)
            :: (simLoop r emi pm b0 paid (target - paid).toNat).2) ∧
      (target ≤ paid → simLoop r emi pm b0 paid (target - paid).toNat = (b0, [])) := by
  constructor
  · unfold simulatePrepayments applyRetro
    rw [if_pos hpm]
  · intro h
    have htn : (target - paid).toNat = 0 := by omega
    rw [htn]
    rfl

theorem C2_amended_witness :
    simulatePrepayments (monthlyRateOf 12) 2000 99000 1
        (prepayMap [⟨1, 50000⟩, ⟨2, 1000⟩]) 2 =
      (46990,
        [SimEvent.retroPrepayEv 1 50000 96990 46990,
          SimEvent.emiEv 2 2000 990 1010 97990,
          SimEvent.prepayEv 2 1000 97990 96990]) := by
  have h := (C2_amended (monthlyRateOf 12) 2000 99000 1 2
    (prepayMap [⟨1, 50000⟩, ⟨2, 1000⟩])
    (by norm_num [prepayMap, prepayStep])).1
  rw [h]
  norm_num [simLoop, simPrepayAfter, amortNext, amortPrincipal, amortClip, amortInterest,
    jsRound, monthlyRateOf, prepayMap, prepayStep]

/-- C5 fails on the code in the Scenario-B direction: Scenario A's schedule
generation is inside try/catch (error contained in `keepEMI.err`), but
Scenario B's `amortizeUntilPaid` call (server.js:242) is NOT, so its
exception propagates to the outer handler and the whole request fails with
HTTP 500.  Concrete input: starting outstanding 1, monthly rate 1/2
(annualRate 600), EMI 10, tenure 2, no prepayments: Scenario A succeeds
(one-row schedule, no error), but Scenario B's `newEmi` is 1, whose first
interest `round(1·1/2) = 1` makes `principal = 0 ≤ 0` — the request dies,
and Scenario A's intact result is never returned. -/
theorem C5_counterexample :
    rescheduleCore 1 (1/2) 10 2 0 [] 1 = Except.error emiTooSmallMsg ∧
      keepEMIcalc 1 (1/2) 10 1 =
        { monthsToFinish := some 1, schedule := [⟨1, 2, 1, 1, 0⟩],
          totalInterest := some 1, err := none } := by
  constructor
  · norm_num [rescheduleCore, rescheduleTarget, lastPrepayMonth, validPrepayMonths,
      simulatePrepayments, applyRetro, simLoop, simPrepayAfter, prepayMap, prepayStep,
      reduceEMIcalc, computeEMI, amortizeUntilPaid, amortGo, amortRow, amortNext,
      amortPrincipal, amortClip, amortInterest, jsRound, Except.map, max_def]
  · norm_num [keepEMIcalc, sumInterest, amortizeUntilPaid, amortGo, amortRow, amortNext,
      amortPrincipal, amortClip, amortInterest, jsRound, Except.map]

/-- C5 amended: an error in Scenario A's schedule generation is scenario
local — `keepEMIcalc` is total, and whenever Scenario B's computation
returns `ok`, the whole request returns `ok` carrying Scenario B's result
and whatever `keepEMIcalc` produced (including an `err` field) — but an
error in Scenario B's schedule generation propagates and fails the whole
request: no scenario result, not even Scenario A's, is returned. -/
theorem C5_amended (b0 r emi : ℚ) (tenure paid : ℤ) (ps : List Prepayment) (m : ℤ) :
    (∀ red,
        reduceEMIcalc
            (simulatePrepayments r emi b0 paid (prepayMap ps) (rescheduleTarget ps paid)).1
            r tenure (rescheduleTarget ps paid) = Except.ok red →
        rescheduleCore b0 r emi tenure paid ps m =
          Except.ok
            { simLog :=
                (simulatePrepayments r emi b0 paid (prepayMap ps) (rescheduleTarget ps paid)).2,
              outstandingAfterPrepayments :=
                (simulatePrepayments r emi b0 paid (prepayMap ps) (rescheduleTarget ps paid)).1,
              keepEMI :=
                keepEMIcalc
                  (simulatePrepayments r emi b0 paid (prepayMap ps) (rescheduleTarget ps paid)).1
                  r emi m,
              reduceEMI := red }) ∧
      (∀ msg,
        reduceEMIcalc
            (simulatePrepayments r emi b0 paid (prepayMap ps) (rescheduleTarget ps paid)).1
            r tenure (rescheduleTarget ps paid) = Except.error msg →
        rescheduleCore b0 r emi tenure paid ps m = Except.error msg) := by
  constructor
  · intro red h
    unfold rescheduleCore
    rw [h]
    rfl
  · intro msg h
    unfold rescheduleCore
    rw [h]
    rfl

theorem C5_amended_witness :
    rescheduleCore 97 (1/10) 10 10 0 [] 3 =
      Except.ok
        { simLog := [],
          outstandingAfterPrepayments := 97,
          keepEMI :=
            { monthsToFinish := some 3, schedule := [], totalInterest := some 0,
              err := some emiTooSmallMsg },
          reduceEMI :=
            { newEmi := 16,
              remainingSchedule :=
                [⟨1, 16, 6, 10, 91⟩, ⟨2, 16, 7, 9, 84⟩, ⟨3, 16, 8, 8, 76⟩, ⟨4, 16, 8, 8, 68⟩,
                  ⟨5, 16, 9, 7, 59⟩, ⟨6, 16, 10, 6, 49⟩, ⟨7, 16, 11, 5, 38⟩, ⟨8, 16, 12, 4, 26⟩,
                  ⟨9, 16, 13, 3, 13⟩, ⟨10, 14, 13, 1, 0⟩],
              totalInterest := 61 } } := by
  have h := (C5_amended 97 (1/10) 10 10 0 [] 3).1
    { newEmi := 16,
      remainingSchedule :=
        [⟨1, 16, 6, 10, 91⟩, ⟨2, 16, 7, 9, 84⟩, ⟨3, 16, 8, 8, 76⟩, ⟨4, 16, 8, 8, 68⟩,
          ⟨5, 16, 9, 7, 59⟩, ⟨6, 16, 10, 6, 49⟩, ⟨7, 16, 11, 5, 38⟩, ⟨8, 16, 12, 4, 26⟩,
          ⟨9, 16, 13, 3, 13⟩, ⟨10, 14, 13, 1, 0⟩],
      totalInterest := 61 }
    (by norm_num [reduceEMIcalc, computeEMI, sumInterest, simulatePrepayments, applyRetro,
      simLoop, prepayMap, rescheduleTarget, lastPrepayMonth, validPrepayMonths,
      amortizeUntilPaid, amortGo, amortRow, amortNext, amortPrincipal, amortClip,
      amortInterest, jsRound, Except.map, max_def])
  rw [h]
  norm_num [simulatePrepayments, applyRetro, simLoop, prepayMap, rescheduleTarget,
    lastPrepayMonth, validPrepayMonths, keepEMIcalc, sumInterest, amortizeUntilPaid,
    amortGo, amortRow, amortNext, amortPrincipal, amortClip, amortInterest, jsRound,
    Except.map, max_def]

/-- C8: for valid inputs (`balance > 0`, `monthlyRate ≥ 0`, `emi > 0`),
every row of an `ok` schedule satisfies `remaining ≥ 0` and
`remaining = round(previous remaining − principal)` (previous remaining of
the first row being the starting balance) — `chainFrom`; the `remaining`
column is non-increasing across the rows; and the final row's `remaining`
is exactly 0 unless the iteration cap `maxMonths` was reached. -/
theorem C8_invariants (balance r emi : ℚ) (maxM : ℕ) (sched : List ScheduleRow)
    (hb : 0 < balance) (hr : 0 ≤ r) (hemi : 0 < emi)
    (h : amortizeUntilPaid balance r emi maxM = Except.ok sched) :
    chainFrom balance sched ∧ remainingNonIncreasing sched ∧
      (sched.length < maxM →
        ((sched.getLast?).map ScheduleRow.remaining).getD 0 = 0) := by
  refine ⟨amortGo_chain r emi maxM balance 0 sched h, ?_,
    fun hlen => amortGo_last r emi maxM balance 0 sched h hlen⟩
  cases maxM with
  | zero =>
    unfold amortizeUntilPaid at h
    simp only [amortGo] at h
    cases h
    trivial
  | succ n =>
    unfold amortizeUntilPaid at h
    rw [amortGo_succ, if_neg (not_le.mpr hb)] at h
    by_cases he : emi - amortInterest r balance ≤ 0
    · rw [if_pos he] at h
      exact absurd h (by simp)
    · rw [if_neg he] at h
      cases hgo : amortGo r emi (amortNext r emi balance) (0 + 1) n with
      | error msg =>
        rw [hgo] at h
        exact absurd h (by simp [Except.map])
      | ok rest =>
        rw [hgo] at h
        simp only [Except.map] at h
        cases h
        have hnn := amortNext_nonneg r emi balance
        have hrem : (amortRow r emi balance (0 + 1)).remaining = amortNext r emi balance :=
          max_eq_left hnn
        have hnexteq : amortNext r emi balance =
            ((jsRound (balance - amortPrincipal r emi balance) : ℤ) : ℚ) := rfl
        have ihres := amortGo_mono r emi n (jsRound (balance - amortPrincipal r emi balance))
          (0 + 1) rest (by rw [← hnexteq]; exact hgo)
        cases rest with
        | nil => trivial
        | cons y ys =>
          refine ⟨?_, ihres.1⟩
          have hy := ihres.2 y rfl
          rw [hrem, hnexteq]
          exact hy

theorem C8_witness :
    chainFrom 100 [⟨1, 90, 40, 50, 60⟩, ⟨2, 90, 60, 30, 0⟩] ∧
      remainingNonIncreasing [⟨1, 90, 40, 50, 60⟩, ⟨2, 90, 60, 30, 0⟩] ∧
      (([⟨1, 90, 40, 50, 60⟩, ⟨2, 90, 60, 30, 0⟩] : List ScheduleRow).length < 7 →
        ((([⟨1, 90, 40, 50, 60⟩, ⟨2, 90, 60, 30, 0⟩] : List ScheduleRow).getLast?).map
          ScheduleRow.remaining).getD 0 = 0) :=
  C8_invariants 100 (1/2) 90 7 [⟨1, 90, 40, 50, 60⟩, ⟨2, 90, 60, 30, 0⟩]
    (by norm_num) (by norm_num) (by norm_num)
    (by norm_num [amortizeUntilPaid, amortGo, amortRow, amortNext, amortPrincipal,
      amortClip, amortInterest, jsRound, Except.map])

/-- C9 fails on the code: `principal = emi − interest` is never rounded, so
with a non-integer EMI the emitted row has non-integer `principal` and
`emi_paid`.  Concrete input: balance 1000, rate 0, EMI 100.5 — the single
row is { emi_paid := 100.5, principal := 100.5, interest := 0,
remaining := 900 }, and 100.5 is not an integer amount. -/
theorem C9_counterexample :
    amortizeUntilPaid 1000 0 (201/2) 1 =
        Except.ok [⟨1, 201/2, 201/2, 0, 900⟩] ∧
      ¬ intValued ((201 : ℚ)/2) := by
  constructor
  · norm_num [amortizeUntilPaid, amortGo, amortRow, amortNext, amortPrincipal, amortClip,
      amortInterest, jsRound, Except.map]
  · rintro ⟨k, hk⟩
    have h2 : (201 : ℚ) = 2 * (k : ℚ) := by linarith
    have h3 : (201 : ℤ) = 2 * k := by exact_mod_cast h2
    omega

/-- C9 amended: `interest` and `remaining` of every emitted row are integers
for ALL inputs (they are produced by `round`), and when the starting balance
and the EMI are integers so are `emi_paid` and `principal`; the outstanding
balance after every EMI and prepayment step of the reschedule simulation is
an integer whenever the starting outstanding and EMI are (prepayment amounts
may be arbitrary, since the balance is rounded after subtraction). -/
theorem C9_amended :
    (∀ (b r emi : ℚ) (maxM : ℕ) (sched : List ScheduleRow),
        amortizeUntilPaid b r emi maxM = Except.ok sched →
        (∀ row ∈ sched, intValued row.interest ∧ intValued row.remaining) ∧
          (intValued b → intValued emi →
            ∀ row ∈ sched, intValued row.emi_paid ∧ intValued row.principal)) ∧
      (∀ (r emi b0 : ℚ) (paid : ℤ) (pm : ℤ → ℚ) (target : ℤ),
        intValued b0 → intValued emi →
        intValued (simulatePrepayments r emi b0 paid pm target).1 ∧
          ∀ ev ∈ (simulatePrepayments r emi b0 paid pm target).2, eventIntegral ev) := by
  constructor
  · intro b r emi maxM sched h
    exact amortGo_integral r emi maxM b 0 sched h
  · intro r emi b0 paid pm target hb hemi
    exact simulatePrepayments_integral r emi b0 paid pm target hb hemi

theorem C9_amended_witness :
    amortizeUntilPaid 1000 (1/100) 100 2 =
        Except.ok [⟨1, 100, 90, 10, 910⟩, ⟨2, 100, 91, 9, 819⟩] ∧
      intValued (1000 : ℚ) ∧ intValued (100 : ℚ) ∧
      intValued (910 : ℚ) ∧ intValued (91 : ℚ) := by
  have hok : amortizeUntilPaid 1000 (1/100) 100 2 =
      Except.ok [⟨1, 100, 90, 10, 910⟩, ⟨2, 100, 91, 9, 819⟩] := by
    norm_num [amortizeUntilPaid, amortGo, amortRow, amortNext, amortPrincipal, amortClip,
      amortInterest, jsRound, Except.map]
  have h := C9_amended.1 1000 (1/100) 100 2
    [⟨1, 100, 90, 10, 910⟩, ⟨2, 100, 91, 9, 819⟩] hok
  have hrow1 := h.1 ⟨1, 100, 90, 10, 910⟩ (by simp)
  have hrow2 := h.2 ⟨1000, by norm_num⟩ ⟨100, by norm_num⟩ ⟨2, 100, 91, 9, 819⟩ (by simp)
  exact ⟨hok, ⟨1000, by norm_num⟩, ⟨100, by norm_num⟩, hrow1.2, hrow2.2⟩
